import Mathlib

/-! Verification of kubeshark/utils, package `sentry`.

A shallow embedding of `src/sentry/sentry.go` and the properties of its five
functions (`IsSentryEnabled`, `Environment`, `GetDSN`, `AddTags`,
`getDSNEndpoint`).

Conventions of the embedding

* A Go `string` is a Lean `String`; only equality with a literal and
  concatenation are used on it.
* A Go `error` is represented by its message (`err.Error()`), `nil` by `none`.
* The process environment is the lookup function behind `os.LookupEnv`.
* Calls that leave the package (JSON codec, request construction, the HTTP
  client, the reporting scope) are fields of `External` or arguments, so every
  theorem holds for all behaviours of those collaborators.
-/

namespace Sentry

/-! ## Process environment -/

/-- The process environment as seen through `os.LookupEnv`: `none` is "unset". -/
abbrev OsEnv := String → Option String

/-- The call `os.LookupEnv(key)`: value and presence flag. -/
def os_LookupEnv (env : OsEnv) (key : String) : String × Bool :=
  match env key with
  | some v => (v, true)
  | none => ("", false)

/-- The call `os.Getenv(key)`: the value, or the empty string when unset. -/
def os_Getenv (env : OsEnv) (key : String) : String :=
  (os_LookupEnv env key).1

/-- Go source, lines 25-27:
`return os.Getenv("SENTRY_ENABLED") == "true"`. -/
def IsSentryEnabled (env : OsEnv) : Bool :=
  os_Getenv env "SENTRY_ENABLED" == "true"

/-- Go source, lines 29-36. -/
def Environment (env : OsEnv) : String :=
  let sentryEnv := "undefined"
  let (e, ok) := os_LookupEnv env "SENTRY_ENVIRONMENT"
  let sentryEnv := if ok then e else sentryEnv
  sentryEnv

/-- Go source, lines 98-105; `fmt.Sprintf("%s/sentry", apiUrl)` is the
concatenation of `apiUrl` and the literal suffix. -/
def getDSNEndpoint (env : OsEnv) : String :=
  let (apiUrl, ok) := os_LookupEnv env "KUBESHARK_CLOUD_API_URL"
  let apiUrl := if !ok then "https://api.kubeshark.co" else apiUrl
  apiUrl ++ "/sentry"

/-- An environment in which exactly one variable is set. -/
def envSingle (key value : String) : OsEnv :=
  fun k => if k = key then some value else none

/-- The environment with no variable set. -/
def envUnset : OsEnv := fun _ => none

/-! ## Wire entities and the collaborators of `GetDSN` -/

/-- A Go `error`, represented by its message. -/
abbrev GoError := String

/-- Go source, lines 16-19. -/
structure Request where
  Service : String
  Version : String
  deriving DecidableEq, Repr

/-- Go source, lines 21-23. -/
structure DSNResponse where
  DSN : String
  deriving DecidableEq, Repr

/-- A `context.Context`, reduced to what `ctx.Err()` reports: `none` while the
context is live, the cancellation error once it is cancelled. -/
structure Context where
  Err : Option GoError
  deriving DecidableEq, Repr

/-- The `retryablehttp.Client` configuration, reduced to the field this package
writes. `RetryMax` is a Go `int`. -/
structure RetryClient where
  RetryMax : Int
  deriving DecidableEq, Repr

/-- An `*http.Request` as built by `http.NewRequestWithContext`. -/
structure HttpRequest where
  ctx : Context
  Method : String
  URL : String
  Body : String
  Header : List (String × String)
  deriving DecidableEq, Repr

/-- The call `req.Header.Set(key, value)`: the entry for `key` is replaced. -/
def HttpRequest.Header_Set (req : HttpRequest) (key value : String) : HttpRequest :=
  { req with Header := (key, value) :: req.Header.filter (fun p => p.1 ≠ key) }

/-- Result of `io.ReadAll(resp.Body)`: the bytes, or the read error. -/
inductive ReadResult where
  | ok (body : String)
  | error (err : GoError)
  deriving DecidableEq, Repr

/-- An `*http.Response`, reduced to the status code and to what reading its
body to the end would yield. -/
structure HttpResponse where
  StatusCode : Int
  Body : ReadResult
  deriving DecidableEq, Repr

/-- Result of `client.Do(req)`. -/
inductive DoResult where
  | ok (resp : HttpResponse)
  | error (err : GoError)
  deriving DecidableEq, Repr

/-- The constant `http.StatusOK`. -/
def http_StatusOK : Int := 200

/-- Everything `GetDSN` calls outside this package. Each field is an arbitrary
function, so a theorem quantified over `External` holds for every behaviour of
the JSON codec, of request validation and of the retrying HTTP client. -/
structure External where
  /-- The call `retryablehttp.NewClient()`: the library defaults. -/
  retryablehttp_NewClient : RetryClient
  /-- The call `json.Marshal(reqBody)`. -/
  json_Marshal : Request → Except GoError String
  /-- The validation done by `http.NewRequestWithContext(ctx, method, url, _)`:
  `some err` when construction is refused. -/
  newRequestError : Context → String → String → Option GoError
  /-- The call `client.Do(req)` on the standard client of a retrying client. -/
  client_Do : RetryClient → HttpRequest → DoResult
  /-- The call `json.Unmarshal(body, &dsnResp)` on a zero `DSNResponse`. -/
  json_Unmarshal : String → Except GoError DSNResponse

/-- The call `http.NewRequestWithContext(ctx, method, url, bytes.NewBuffer(body))`. -/
def http_NewRequestWithContext (ext : External) (ctx : Context) (method url body : String) :
    Except GoError HttpRequest :=
  match ext.newRequestError ctx method url with
  | some err => .error err
  | none => .ok { ctx := ctx, Method := method, URL := url, Body := body, Header := [] }

/-- One call leaving the package during `GetDSN`, with what it returned where
the code branches on it. -/
inductive Call where
  | jsonMarshal (reqBody : Request)
  | newRequest (method url : String) (err : Option GoError)
  | clientDo (client : RetryClient) (req : HttpRequest) (res : DoResult)
  | readAll
  | jsonUnmarshal (body : String)
  | bodyClose
  deriving DecidableEq, Repr

/-- What one invocation of `GetDSN` yields: the two return values and the
calls it made, in program order. -/
structure GetDSNResult where
  dsn : String
  err : Option GoError
  calls : List Call
  deriving DecidableEq, Repr

/-- Go source, lines 38-86. `fmt.Errorf("...: %v", err)` is the literal prefix
followed by `err.Error()`. `retryClient.StandardClient()` only wraps the
retrying client, so `client.Do(req)` is `client_Do` on its configuration. The
deferred `resp.Body.Close()` runs on every return after a successful
`client.Do`, hence closes each such call list. `calls` is the only addition
to the source: it records the calls made, and no branch depends on it. -/
def GetDSN (ext : External) (env : OsEnv) (ctx : Context) (service version : String) :
    GetDSNResult :=
  let retryClient : RetryClient := { ext.retryablehttp_NewClient with RetryMax := 3 }
  let endpoint := getDSNEndpoint env
  let reqBody : Request := { Service := service, Version := version }
  let c1 := [Call.jsonMarshal reqBody]
  match ext.json_Marshal reqBody with
  | .error err => ⟨"", some ("error marshalling request body: " ++ err), c1⟩
  | .ok jsonData =>
    match http_NewRequestWithContext ext ctx "POST" endpoint jsonData with
    | .error err =>
      ⟨"", some ("error creating POST request: " ++ err),
        c1 ++ [Call.newRequest "POST" endpoint (some err)]⟩
    | .ok req =>
      let c2 := c1 ++ [Call.newRequest "POST" endpoint none]
      let req := req.Header_Set "Content-Type" "application/json"
      match ext.client_Do retryClient req with
      | .error err =>
        ⟨"", some ("error making POST request: " ++ err),
          c2 ++ [Call.clientDo retryClient req (.error err)]⟩
      | .ok resp =>
        let c3 := c2 ++ [Call.clientDo retryClient req (.ok resp)]
        if resp.StatusCode ≠ http_StatusOK then
          ⟨"", none, c3 ++ [Call.bodyClose]⟩
        else
          match resp.Body with
          | .error err =>
            ⟨"", some ("error reading response body: " ++ err),
              c3 ++ [Call.readAll, Call.bodyClose]⟩
          | .ok body =>
            match ext.json_Unmarshal body with
            | .error err =>
              ⟨"", some ("error unmarshalling response body: " ++ err),
                c3 ++ [Call.readAll, Call.jsonUnmarshal body, Call.bodyClose]⟩
            | .ok dsnResp =>
              ⟨dsnResp.DSN, none,
                c3 ++ [Call.readAll, Call.jsonUnmarshal body, Call.bodyClose]⟩

/-- The message `msg` contains `cause` as a contiguous part. -/
def Contains (msg cause : String) : Prop :=
  ∃ pre post : String, msg = pre ++ cause ++ post

/-! ## A test double of the collaborators -/

/-- Decoder of the test double: accepts exactly the bodies of the form
`\x7b"dsn":"<d>"\x7d` and yields `<d>`; every other body is a syntax error. -/
def mockUnmarshal (body : String) : Except GoError DSNResponse :=
  let pre := "\x7b\"dsn\":\"".data
  let suf := "\"\x7d".data
  if pre.isPrefixOf body.data && suf.isSuffixOf (body.data.drop pre.length) then
    .ok ⟨String.mk ((body.data.drop pre.length).dropLast.dropLast)⟩
  else
    .error "invalid character"

/-- A server that answers every request with one fixed status and body, behind
a client that gives up with the context's error when the context is already
cancelled. Request construction refuses a URL that contains a blank. -/
def mockServer (status : Int) (body : ReadResult) : External where
  retryablehttp_NewClient := { RetryMax := 4 }
  json_Marshal := fun r =>
    .ok ("\x7b\"service\":\"" ++ r.Service ++ "\",\"version\":\"" ++ r.Version ++ "\"\x7d")
  newRequestError := fun _ _ url =>
    if ' ' ∈ url.data then some "invalid character \" \" in host name" else none
  client_Do := fun _ req =>
    match req.ctx.Err with
    | some e => .error e
    | none => .ok { StatusCode := status, Body := body }
  json_Unmarshal := mockUnmarshal

/-- A live context. -/
def ctxBackground : Context := { Err := none }

/-- An already-cancelled context. -/
def ctxCancelled : Context := { Err := some "context canceled" }


/-! ## The reporting scope and `AddTags` -/

/-- Modelled from the spec: the reporting scope of the SDK (`sentry-go`, whose
code is not under `src/`), "an opaque sink it writes key/value pairs into"
(section 3). It is the scope reached through `sentry.ConfigureScope`, reduced
to its tag table, together with the `SetTag` calls it has received, oldest
first. -/
structure Scope where
  tags : String → Option String
  setTagCalls : List (String × String)

/-- Modelled from the spec: the mutation `apply(key, value)` of the scope
(section 9), that is `scope.SetTag(key, value)`: the tag of `key` becomes
`value`, the other tags stay, and the call is recorded. -/
def Scope.SetTag (scope : Scope) (key value : String) : Scope :=
  { tags := fun k => if k = key then some value else scope.tags k
    setTagCalls := scope.setTagCalls ++ [(key, value)] }

/-- Go source, lines 88-96. A Go map is given by its entries in the order the
`range` loop visits them, so `tags` has pairwise different keys and the same
map may come as any permutation of its entries. -/
def AddTags (tags : List (String × String)) (scope : Scope) : Scope :=
  tags.foldl (fun scope kv => if kv.2 ≠ "" then scope.SetTag kv.1 kv.2 else scope) scope

/-- A scope without tags that has received no call. -/
def scopeEmpty : Scope := { tags := fun _ => none, setTagCalls := [] }

/-! ## The retrying transport -/

/-- Modelled from the spec: what a single attempt of the retrying transport
ends in, a network error or a response (section 4.3 item 4). -/
inductive Attempt where
  | networkError (err : GoError)
  | response (resp : HttpResponse)
  deriving DecidableEq, Repr

/-- Modelled from the spec: the retry loop of the retrying HTTP client
(`go-retryablehttp`, a dependency whose code is not under `src/`). Section 4.3
item 4: the transport "automatically retries the request up to 3 additional
attempts total on transient failures (network errors, retryable status codes)",
the ceiling being the configured `RetryMax`. `attempt i` is the outcome of the
attempt number `i` (from 0), `transient` tells which outcomes are retried and
`remain` is the number of retries still allowed. The result is the outcome
handed back and the number of attempts issued. -/
def retryLoop (transient : Attempt → Bool) (attempt : Nat → Attempt) :
    (remain : Nat) → (i : Nat) → Attempt × Nat
  | 0, i => (attempt i, i + 1)
  | remain + 1, i =>
    if transient (attempt i) then retryLoop transient attempt remain (i + 1)
    else (attempt i, i + 1)

/-- Modelled from the spec: one `Do` of the retrying transport configured by
`client`, starting at attempt 0 with `client.RetryMax` retries allowed. -/
def retryingDo (client : RetryClient) (transient : Attempt → Bool) (attempt : Nat → Attempt) :
    Attempt × Nat :=
  retryLoop transient attempt client.RetryMax.toNat 0

/-- The calls of a list that are a `client.Do`. -/
def clientDoCalls (calls : List Call) : List Call :=
  calls.filter (fun c => match c with | .clientDo _ _ _ => true | _ => false)


/-- The request `GetDSN` hands to `client.Do` once `json.Marshal` has produced
`jsonData` and request construction has succeeded (source lines 57-62). -/
def sentRequest (env : OsEnv) (ctx : Context) (jsonData : String) : HttpRequest :=
  HttpRequest.Header_Set
    { ctx := ctx, Method := "POST", URL := getDSNEndpoint env, Body := jsonData, Header := [] }
    "Content-Type" "application/json"

/-- The calls every invocation makes before `client.Do` when request
construction succeeds. -/
def callsBeforeDo (env : OsEnv) (service version : String) : List Call :=
  [Call.jsonMarshal { Service := service, Version := version },
   Call.newRequest "POST" (getDSNEndpoint env) none]

/-! ## Theorems: the environment readers -/

/-- C7: `IsSentryEnabled` is true exactly when `SENTRY_ENABLED` is set to the
string `"true"`, and false in every other state of the variable; in particular
it is false when the variable is unset or set to `""`, `"1"`, `"True"` or
`" true"`. -/
theorem IsSentryEnabled_iff_exactly_true (env : OsEnv) :
    (IsSentryEnabled env = true ↔ env "SENTRY_ENABLED" = some "true") ∧
    (IsSentryEnabled env = false ↔ env "SENTRY_ENABLED" ≠ some "true") ∧
    IsSentryEnabled envUnset = false ∧
    (∀ v ∈ ["", "1", "True", " true"],
      IsSentryEnabled (envSingle "SENTRY_ENABLED" v) = false) := by
  have key : IsSentryEnabled env = true ↔ env "SENTRY_ENABLED" = some "true" := by
    unfold IsSentryEnabled os_Getenv os_LookupEnv
    cases h : env "SENTRY_ENABLED" with
    | none => simp
    | some v => simp
  refine ⟨key, ?_, by decide, by decide⟩
  rw [Ne, ← key]
  cases IsSentryEnabled env <;> simp

/-- Instance of C7 at the environment where `SENTRY_ENABLED` is `"True"`. -/
theorem IsSentryEnabled_iff_exactly_true_witness :
    IsSentryEnabled (envSingle "SENTRY_ENABLED" "True") = false ∧
    IsSentryEnabled (envSingle "SENTRY_ENABLED" "true") = true :=
  ⟨(IsSentryEnabled_iff_exactly_true (envSingle "SENTRY_ENABLED" "True")).2.1.2 (by decide),
   (IsSentryEnabled_iff_exactly_true (envSingle "SENTRY_ENABLED" "true")).1.2 (by decide)⟩

/-- C8: when `SENTRY_ENVIRONMENT` is present `Environment` returns its value
unchanged, the empty string included, and when it is absent `Environment`
returns `"undefined"`. -/
theorem Environment_value_or_fallback (env : OsEnv) :
    (∀ v, env "SENTRY_ENVIRONMENT" = some v → Environment env = v) ∧
    (env "SENTRY_ENVIRONMENT" = some "" → Environment env = "") ∧
    (env "SENTRY_ENVIRONMENT" = none → Environment env = "undefined") := by
  refine ⟨?_, ?_, ?_⟩ <;> intros <;> simp_all [Environment, os_LookupEnv]

/-- Instance of C8: the variable set to the empty string, and the variable
unset. -/
theorem Environment_value_or_fallback_witness :
    Environment (envSingle "SENTRY_ENVIRONMENT" "") = "" ∧
    Environment envUnset = "undefined" :=
  ⟨(Environment_value_or_fallback (envSingle "SENTRY_ENVIRONMENT" "")).2.1 (by decide),
   (Environment_value_or_fallback envUnset).2.2 rfl⟩

/-- C10, as stated, fails: with `SENTRY_ENVIRONMENT` set to the string
`"undefined"` the variable is present and `Environment` still returns
`"undefined"`. -/
theorem Environment_undefined_while_set :
    Environment (envSingle "SENTRY_ENVIRONMENT" "undefined") = "undefined" ∧
    envSingle "SENTRY_ENVIRONMENT" "undefined" "SENTRY_ENVIRONMENT" ≠ none ∧
    ¬ (Environment (envSingle "SENTRY_ENVIRONMENT" "undefined") = "undefined" ↔
        envSingle "SENTRY_ENVIRONMENT" "undefined" "SENTRY_ENVIRONMENT" = none) := by
  decide

/-- C10, amended: `Environment` returns `"undefined"` exactly when
`SENTRY_ENVIRONMENT` is unset or is set to the string `"undefined"` itself. -/
theorem Environment_undefined_iff (env : OsEnv) :
    Environment env = "undefined" ↔
      env "SENTRY_ENVIRONMENT" = none ∨ env "SENTRY_ENVIRONMENT" = some "undefined" := by
  unfold Environment os_LookupEnv
  cases h : env "SENTRY_ENVIRONMENT" with
  | none => simp
  | some v => simp

/-- Instance of amended C10 in both directions. -/
theorem Environment_undefined_iff_witness :
    Environment envUnset = "undefined" ∧
    (envSingle "SENTRY_ENVIRONMENT" "prod" "SENTRY_ENVIRONMENT" ≠ none ∧
      Environment (envSingle "SENTRY_ENVIRONMENT" "prod") ≠ "undefined") :=
  ⟨(Environment_undefined_iff envUnset).2 (Or.inl rfl),
   by decide,
   fun h => by
    have := (Environment_undefined_iff (envSingle "SENTRY_ENVIRONMENT" "prod")).1 h
    revert this
    decide⟩


/-! ## Theorems: `GetDSN` -/

/-- The seven ways through `GetDSN`, each with the answers of the collaborators
that select it and the result it produces. -/
theorem GetDSN_paths (ext : External) (env : OsEnv) (ctx : Context)
    (service version : String) :
    (∃ e, ext.json_Marshal ⟨service, version⟩ = .error e ∧
      GetDSN ext env ctx service version =
        ⟨"", some ("error marshalling request body: " ++ e),
          [Call.jsonMarshal ⟨service, version⟩]⟩) ∨
    (∃ j e, ext.json_Marshal ⟨service, version⟩ = .ok j ∧
      ext.newRequestError ctx "POST" (getDSNEndpoint env) = some e ∧
      GetDSN ext env ctx service version =
        ⟨"", some ("error creating POST request: " ++ e),
          [Call.jsonMarshal ⟨service, version⟩,
           Call.newRequest "POST" (getDSNEndpoint env) (some e)]⟩) ∨
    (∃ j, ext.json_Marshal ⟨service, version⟩ = .ok j ∧
      ext.newRequestError ctx "POST" (getDSNEndpoint env) = none ∧
      ((∃ e, ext.client_Do ⟨3⟩ (sentRequest env ctx j) = .error e ∧
          GetDSN ext env ctx service version =
            ⟨"", some ("error making POST request: " ++ e),
              callsBeforeDo env service version ++
                [Call.clientDo ⟨3⟩ (sentRequest env ctx j) (.error e)]⟩) ∨
       (∃ resp, ext.client_Do ⟨3⟩ (sentRequest env ctx j) = .ok resp ∧
          ((resp.StatusCode ≠ 200 ∧
              GetDSN ext env ctx service version =
                ⟨"", none,
                  callsBeforeDo env service version ++
                    [Call.clientDo ⟨3⟩ (sentRequest env ctx j) (.ok resp), Call.bodyClose]⟩) ∨
           (resp.StatusCode = 200 ∧ ∃ e, resp.Body = .error e ∧
              GetDSN ext env ctx service version =
                ⟨"", some ("error reading response body: " ++ e),
                  callsBeforeDo env service version ++
                    [Call.clientDo ⟨3⟩ (sentRequest env ctx j) (.ok resp), Call.readAll,
                     Call.bodyClose]⟩) ∨
           (resp.StatusCode = 200 ∧ ∃ body, resp.Body = .ok body ∧
              ((∃ e, ext.json_Unmarshal body = .error e ∧
                  GetDSN ext env ctx service version =
                    ⟨"", some ("error unmarshalling response body: " ++ e),
                      callsBeforeDo env service version ++
                        [Call.clientDo ⟨3⟩ (sentRequest env ctx j) (.ok resp), Call.readAll,
                         Call.jsonUnmarshal body, Call.bodyClose]⟩) ∨
               (∃ d, ext.json_Unmarshal body = .ok d ∧
                  GetDSN ext env ctx service version =
                    ⟨d.DSN, none,
                      callsBeforeDo env service version ++
                        [Call.clientDo ⟨3⟩ (sentRequest env ctx j) (.ok resp), Call.readAll,
                         Call.jsonUnmarshal body, Call.bodyClose]⟩))))))) := by
  cases h1 : ext.json_Marshal ⟨service, version⟩ with
  | error e => exact Or.inl ⟨e, rfl, by simp [GetDSN, h1]⟩
  | ok j =>
    refine Or.inr ?_
    cases h2 : ext.newRequestError ctx "POST" (getDSNEndpoint env) with
    | some e =>
      exact Or.inl ⟨j, e, rfl, rfl, by simp [GetDSN, http_NewRequestWithContext, h1, h2]⟩
    | none =>
      refine Or.inr ⟨j, rfl, rfl, ?_⟩
      cases h3 : ext.client_Do ⟨3⟩ (sentRequest env ctx j) with
      | error e =>
        refine Or.inl ⟨e, rfl, ?_⟩
        unfold sentRequest at h3
        simp [GetDSN, http_NewRequestWithContext, h1, h2, h3, callsBeforeDo, sentRequest]
      | ok resp =>
        refine Or.inr ⟨resp, rfl, ?_⟩
        unfold sentRequest at h3
        by_cases hs : resp.StatusCode = 200
        · refine Or.inr ?_
          cases h4 : resp.Body with
          | error e =>
            refine Or.inl ⟨hs, e, rfl, ?_⟩
            simp [GetDSN, http_NewRequestWithContext, h1, h2, h3, h4, hs, callsBeforeDo,
              sentRequest, http_StatusOK]
          | ok body =>
            refine Or.inr ⟨hs, body, rfl, ?_⟩
            cases h5 : ext.json_Unmarshal body with
            | error e =>
              refine Or.inl ⟨e, rfl, ?_⟩
              simp [GetDSN, http_NewRequestWithContext, h1, h2, h3, h4, h5, hs, callsBeforeDo,
                sentRequest, http_StatusOK]
            | ok d =>
              refine Or.inr ⟨d, rfl, ?_⟩
              simp [GetDSN, http_NewRequestWithContext, h1, h2, h3, h4, h5, hs, callsBeforeDo,
                sentRequest, http_StatusOK]
        · refine Or.inl ⟨hs, ?_⟩
          simp [GetDSN, http_NewRequestWithContext, h1, h2, h3, hs, callsBeforeDo,
            sentRequest, http_StatusOK]

/-- What `GetDSN` returns once `client.Do` has handed it the response `resp`,
by status code, readability of the body and answer of the decoder. -/
theorem GetDSN_after_response (ext : External) (env : OsEnv) (ctx : Context)
    (service version jsonData : String) (resp : HttpResponse)
    (hm : ext.json_Marshal ⟨service, version⟩ = .ok jsonData)
    (hn : ext.newRequestError ctx "POST" (getDSNEndpoint env) = none)
    (hd : ext.client_Do ⟨3⟩ (sentRequest env ctx jsonData) = .ok resp) :
    (resp.StatusCode ≠ 200 →
      (GetDSN ext env ctx service version).dsn = "" ∧
      (GetDSN ext env ctx service version).err = none ∧
      Call.readAll ∉ (GetDSN ext env ctx service version).calls ∧
      ∀ body, Call.jsonUnmarshal body ∉ (GetDSN ext env ctx service version).calls) ∧
    (resp.StatusCode = 200 → ∀ err, resp.Body = .error err →
      (GetDSN ext env ctx service version).dsn = "" ∧
      (GetDSN ext env ctx service version).err = some ("error reading response body: " ++ err)) ∧
    (resp.StatusCode = 200 → ∀ body, resp.Body = .ok body →
      (∀ err, ext.json_Unmarshal body = .error err →
        (GetDSN ext env ctx service version).dsn = "" ∧
        (GetDSN ext env ctx service version).err =
          some ("error unmarshalling response body: " ++ err)) ∧
      (∀ dsnResp, ext.json_Unmarshal body = .ok dsnResp →
        (GetDSN ext env ctx service version).dsn = dsnResp.DSN ∧
        (GetDSN ext env ctx service version).err = none)) := by
  rcases GetDSN_paths ext env ctx service version with
    ⟨e, hm', h⟩ | ⟨j, e, hm', hn', h⟩ | ⟨j, hm', hn', ⟨e, h3, h⟩ | ⟨resp', h3, ⟨hs', h⟩ |
      ⟨hs', e, hb, h⟩ | ⟨hs', body, hb, ⟨e, hj, h⟩ | ⟨d, hj, h⟩⟩⟩⟩
  all_goals rw [h]
  all_goals simp [callsBeforeDo]
  all_goals simp_all

/-- Every logged call carries what the collaborator really answered, and the
one `client.Do` is made on the client with `RetryMax = 3` and on a `POST`
request to the endpoint with the JSON content type. -/
theorem GetDSN_calls_sound (ext : External) (env : OsEnv) (ctx : Context)
    (service version : String) :
    (∀ method url err,
      Call.newRequest method url err ∈ (GetDSN ext env ctx service version).calls →
        method = "POST" ∧ url = getDSNEndpoint env ∧
        ext.newRequestError ctx method url = err) ∧
    (∀ client req res,
      Call.clientDo client req res ∈ (GetDSN ext env ctx service version).calls →
        client = ⟨3⟩ ∧ ext.client_Do client req = res ∧
        ∃ j, ext.json_Marshal ⟨service, version⟩ = .ok j ∧ req = sentRequest env ctx j) := by
  rcases GetDSN_paths ext env ctx service version with
    ⟨e, _, h⟩ | ⟨j, e, hm, hn, h⟩ | ⟨j, hm, hn, ⟨e, h3, h⟩ | ⟨resp', h3, ⟨hs', h⟩ |
      ⟨hs', e, hb, h⟩ | ⟨hs', body, hb, ⟨e, hj, h⟩ | ⟨d, hj, h⟩⟩⟩⟩
  all_goals rw [h]
  all_goals simp [callsBeforeDo]
  all_goals simp_all

/-- The number of attempts of the retry loop started at attempt `i` with
`remain` retries allowed lies between `i + 1` and `i + remain + 1`, and is
`i + remain + 1` when every outcome is transient. -/
theorem retryLoop_attempts (transient : Attempt → Bool) (attempt : Nat → Attempt)
    (remain i : Nat) :
    i + 1 ≤ (retryLoop transient attempt remain i).2 ∧
    (retryLoop transient attempt remain i).2 ≤ i + remain + 1 ∧
    ((∀ k, transient (attempt k) = true) →
      (retryLoop transient attempt remain i).2 = i + remain + 1) := by
  induction remain generalizing i with
  | zero => simp [retryLoop]
  | succ n ih =>
    unfold retryLoop
    by_cases ht : transient (attempt i) = true
    · simp only [ht, if_true]
      obtain ⟨h1, h2, h3⟩ := ih (i + 1)
      refine ⟨by omega, by omega, fun hall => ?_⟩
      rw [h3 hall]
      omega
    · simp only [ht]
      refine ⟨by simp, by simp, fun hall => absurd (hall i) ht⟩

/-- C1: whenever `client.Do` hands `GetDSN` a response whose status code is not
200, whatever the service, the version and the body (readable or not),
`GetDSN` returns the empty string and a nil error, and neither reads the body
nor calls the decoder. -/
theorem GetDSN_non200_empty_nil (ext : External) (env : OsEnv) (ctx : Context)
    (service version jsonData : String) (resp : HttpResponse)
    (hm : ext.json_Marshal ⟨service, version⟩ = .ok jsonData)
    (hn : ext.newRequestError ctx "POST" (getDSNEndpoint env) = none)
    (hd : ext.client_Do ⟨3⟩ (sentRequest env ctx jsonData) = .ok resp)
    (hs : resp.StatusCode ≠ 200) :
    (GetDSN ext env ctx service version).dsn = "" ∧
    (GetDSN ext env ctx service version).err = none ∧
    Call.readAll ∉ (GetDSN ext env ctx service version).calls ∧
    ∀ body, Call.jsonUnmarshal body ∉ (GetDSN ext env ctx service version).calls :=
  (GetDSN_after_response ext env ctx service version jsonData resp hm hn hd).1 hs

/-- Instance of C1: a server answering 404 with a body, and a server answering
500 with a body that cannot be read. -/
theorem GetDSN_non200_empty_nil_witness :
    ((GetDSN (mockServer 404 (.ok "not found")) envUnset ctxBackground "hub" "1.0").dsn = "" ∧
     (GetDSN (mockServer 404 (.ok "not found")) envUnset ctxBackground "hub" "1.0").err = none) ∧
    ((GetDSN (mockServer 500 (.error "unexpected EOF")) envUnset ctxBackground "hub" "1.0").dsn
        = "" ∧
     (GetDSN (mockServer 500 (.error "unexpected EOF")) envUnset ctxBackground "hub" "1.0").err
        = none) :=
  have h404 := GetDSN_non200_empty_nil (mockServer 404 (.ok "not found")) envUnset
    ctxBackground "hub" "1.0" "\x7b\"service\":\"hub\",\"version\":\"1.0\"\x7d"
    ⟨404, .ok "not found"⟩ rfl rfl rfl (by decide)
  have h500 := GetDSN_non200_empty_nil (mockServer 500 (.error "unexpected EOF")) envUnset
    ctxBackground "hub" "1.0" "\x7b\"service\":\"hub\",\"version\":\"1.0\"\x7d"
    ⟨500, .error "unexpected EOF"⟩ rfl rfl rfl (by decide)
  ⟨⟨h404.1, h404.2.1⟩, ⟨h500.1, h500.2.1⟩⟩

/-- C2: when `client.Do` hands `GetDSN` a response with status 200 whose body is
read in full and is decoded by `json.Unmarshal` to the `dsn` string `d`,
`GetDSN` returns `d` and a nil error. -/
theorem GetDSN_ok_returns_dsn (ext : External) (env : OsEnv) (ctx : Context)
    (service version jsonData : String) (resp : HttpResponse) (body d : String)
    (hm : ext.json_Marshal ⟨service, version⟩ = .ok jsonData)
    (hn : ext.newRequestError ctx "POST" (getDSNEndpoint env) = none)
    (hd : ext.client_Do ⟨3⟩ (sentRequest env ctx jsonData) = .ok resp)
    (hs : resp.StatusCode = 200) (hb : resp.Body = .ok body)
    (hj : ext.json_Unmarshal body = .ok ⟨d⟩) :
    (GetDSN ext env ctx service version).dsn = d ∧
    (GetDSN ext env ctx service version).err = none :=
  ((GetDSN_after_response ext env ctx service version jsonData resp hm hn hd).2.2 hs body hb).2
    ⟨d⟩ hj

/-- Instance of C2: status 200 with the body `\x7b"dsn":"https://x/1"\x7d`. -/
theorem GetDSN_ok_returns_dsn_witness :
    (GetDSN (mockServer 200 (.ok "\x7b\"dsn\":\"https://x/1\"\x7d")) envUnset ctxBackground
        "hub" "1.0").dsn = "https://x/1" ∧
    (GetDSN (mockServer 200 (.ok "\x7b\"dsn\":\"https://x/1\"\x7d")) envUnset ctxBackground
        "hub" "1.0").err = none :=
  GetDSN_ok_returns_dsn (mockServer 200 (.ok "\x7b\"dsn\":\"https://x/1\"\x7d")) envUnset
    ctxBackground "hub" "1.0" "\x7b\"service\":\"hub\",\"version\":\"1.0\"\x7d"
    ⟨200, .ok "\x7b\"dsn\":\"https://x/1\"\x7d"⟩ "\x7b\"dsn\":\"https://x/1\"\x7d" "https://x/1"
    rfl rfl rfl rfl rfl rfl

/-- C3: when `client.Do` hands `GetDSN` a response with status 200 whose body
`json.Unmarshal` rejects, `GetDSN` returns the empty string and the non-nil
error `"error unmarshalling response body: "` followed by the decoder's
message; so neither a nil error nor a non-empty string comes back. -/
theorem GetDSN_bad_json_error (ext : External) (env : OsEnv) (ctx : Context)
    (service version jsonData : String) (resp : HttpResponse) (body : String) (cause : GoError)
    (hm : ext.json_Marshal ⟨service, version⟩ = .ok jsonData)
    (hn : ext.newRequestError ctx "POST" (getDSNEndpoint env) = none)
    (hd : ext.client_Do ⟨3⟩ (sentRequest env ctx jsonData) = .ok resp)
    (hs : resp.StatusCode = 200) (hb : resp.Body = .ok body)
    (hj : ext.json_Unmarshal body = .error cause) :
    (GetDSN ext env ctx service version).dsn = "" ∧
    (GetDSN ext env ctx service version).err =
      some ("error unmarshalling response body: " ++ cause) ∧
    (GetDSN ext env ctx service version).err ≠ none := by
  have h := ((GetDSN_after_response ext env ctx service version jsonData resp hm hn hd).2.2
    hs body hb).1 cause hj
  exact ⟨h.1, h.2, by rw [h.2]; exact Option.some_ne_none _⟩

/-- Instance of C3: status 200 with the body `\x7bdsn`. -/
theorem GetDSN_bad_json_error_witness :
    (GetDSN (mockServer 200 (.ok "\x7bdsn")) envUnset ctxBackground "hub" "1.0").dsn = "" ∧
    (GetDSN (mockServer 200 (.ok "\x7bdsn")) envUnset ctxBackground "hub" "1.0").err =
      some ("error unmarshalling response body: " ++ "invalid character") ∧
    (GetDSN (mockServer 200 (.ok "\x7bdsn")) envUnset ctxBackground "hub" "1.0").err ≠ none :=
  GetDSN_bad_json_error (mockServer 200 (.ok "\x7bdsn")) envUnset ctxBackground "hub" "1.0"
    "\x7b\"service\":\"hub\",\"version\":\"1.0\"\x7d"
    ⟨200, .ok "\x7bdsn"⟩ "\x7bdsn" "invalid character" rfl rfl rfl rfl rfl rfl

/-- C4: when request construction fails with `cause`, or `client.Do` returns the
error `cause` (as it does for an already-cancelled context), `GetDSN` returns
the empty string and a non-nil error whose message is a fixed prefix followed
by `cause`, hence contains it. `GetDSN` is a total function: every path ends
in a return. -/
theorem GetDSN_transport_error (ext : External) (env : OsEnv) (ctx : Context)
    (service version jsonData : String) (cause : GoError)
    (hm : ext.json_Marshal ⟨service, version⟩ = .ok jsonData) :
    (ext.newRequestError ctx "POST" (getDSNEndpoint env) = some cause →
      (GetDSN ext env ctx service version).dsn = "" ∧
      (GetDSN ext env ctx service version).err =
        some ("error creating POST request: " ++ cause) ∧
      ∃ msg, (GetDSN ext env ctx service version).err = some msg ∧ Contains msg cause) ∧
    (ext.newRequestError ctx "POST" (getDSNEndpoint env) = none →
      ext.client_Do ⟨3⟩ (sentRequest env ctx jsonData) = .error cause →
      (GetDSN ext env ctx service version).dsn = "" ∧
      (GetDSN ext env ctx service version).err =
        some ("error making POST request: " ++ cause) ∧
      ∃ msg, (GetDSN ext env ctx service version).err = some msg ∧ Contains msg cause) := by
  have hc : ∀ p : String, Contains (p ++ cause) cause := fun p => ⟨p, "", by simp⟩
  constructor
  · intro hn
    rcases GetDSN_paths ext env ctx service version with
      ⟨e, hm', h⟩ | ⟨j, e, hm', hn', h⟩ | ⟨j, hm', hn', _⟩
    · simp_all
    · rw [hn] at hn'
      cases hn'
      rw [h]
      exact ⟨rfl, rfl, _, rfl, hc _⟩
    · simp_all
  · intro hn hd
    rcases GetDSN_paths ext env ctx service version with
      ⟨e, hm', h⟩ | ⟨j, e, hm', hn', h⟩ | ⟨j, hm', hn', ⟨e, h3, h⟩ | ⟨resp', h3, _⟩⟩
    · simp_all
    · simp_all
    · rw [hm] at hm'
      cases hm'
      rw [hd] at h3
      cases h3
      rw [h]
      exact ⟨rfl, rfl, _, rfl, hc _⟩
    · rw [hm] at hm'
      cases hm'
      rw [hd] at h3
      cases h3

/-- Instance of C4: a base URL on which request construction fails, and an
already-cancelled context on which `client.Do` fails. -/
theorem GetDSN_transport_error_witness :
    (GetDSN (mockServer 200 (.ok "")) (envSingle "KUBESHARK_CLOUD_API_URL" "http://bad host")
        ctxBackground "hub" "1.0").err =
      some ("error creating POST request: " ++ "invalid character \" \" in host name") ∧
    (GetDSN (mockServer 200 (.ok "")) envUnset ctxCancelled "hub" "1.0").err =
      some ("error making POST request: " ++ "context canceled") ∧
    (GetDSN (mockServer 200 (.ok "")) envUnset ctxCancelled "hub" "1.0").dsn = "" :=
  have hbad := (GetDSN_transport_error (mockServer 200 (.ok ""))
    (envSingle "KUBESHARK_CLOUD_API_URL" "http://bad host") ctxBackground "hub" "1.0"
    "\x7b\"service\":\"hub\",\"version\":\"1.0\"\x7d" "invalid character \" \" in host name"
    rfl).1 (by decide)
  have hcan := (GetDSN_transport_error (mockServer 200 (.ok "")) envUnset ctxCancelled
    "hub" "1.0" "\x7b\"service\":\"hub\",\"version\":\"1.0\"\x7d" "context canceled"
    rfl).2 (by decide) rfl
  ⟨hbad.2.1, hcan.2.1, hcan.1⟩

/-- C5: `GetDSN` calls `client.Do` at most once, always on a retrying client
whose `RetryMax` is 3, whatever the library defaults; and with that ceiling the
retrying transport issues between 1 and 4 attempts for every sequence of
attempt outcomes and every retry policy, and exactly 4 (the first attempt and
3 retries) when every outcome is a transient failure. -/
theorem GetDSN_retry_ceiling (ext : External) (env : OsEnv) (ctx : Context)
    (service version : String) :
    (clientDoCalls (GetDSN ext env ctx service version).calls).length ≤ 1 ∧
    ∀ client req res,
      Call.clientDo client req res ∈ (GetDSN ext env ctx service version).calls →
        client.RetryMax = 3 ∧
        ∀ (transient : Attempt → Bool) (attempt : Nat → Attempt),
          1 ≤ (retryingDo client transient attempt).2 ∧
          (retryingDo client transient attempt).2 ≤ 4 ∧
          ((∀ k, transient (attempt k) = true) →
            (retryingDo client transient attempt).2 = 4) := by
  constructor
  · rcases GetDSN_paths ext env ctx service version with
      ⟨e, _, h⟩ | ⟨j, e, hm, hn, h⟩ | ⟨j, hm, hn, ⟨e, h3, h⟩ | ⟨resp', h3, ⟨hs', h⟩ |
        ⟨hs', e, hb, h⟩ | ⟨hs', body, hb, ⟨e, hj, h⟩ | ⟨d, hj, h⟩⟩⟩⟩
    all_goals rw [h]
    all_goals simp [clientDoCalls, callsBeforeDo, List.filter]
  · intro client req res hmem
    obtain ⟨hc, -, -⟩ := (GetDSN_calls_sound ext env ctx service version).2 client req res hmem
    subst hc
    refine ⟨rfl, fun transient attempt => ?_⟩
    have h := retryLoop_attempts transient attempt 3 0
    simpa [retryingDo] using h

/-- Instance of C5: a transport on which every attempt fails with a network
error makes 4 attempts for the client `GetDSN` configures. -/
theorem GetDSN_retry_ceiling_witness :
    (retryingDo ⟨3⟩ (fun _ => true) (fun _ => Attempt.networkError "connection refused")).2
      = 4 :=
  (((GetDSN_retry_ceiling (mockServer 200 (.ok "")) envUnset ctxCancelled "hub" "1.0").2 ⟨3⟩
    (sentRequest envUnset ctxCancelled "\x7b\"service\":\"hub\",\"version\":\"1.0\"\x7d")
    (.error "context canceled") (by decide)).2
    (fun _ => true) (fun _ => Attempt.networkError "connection refused")).2.2 (fun _ => rfl)

/-- C6: `getDSNEndpoint` is the value of `KUBESHARK_CLOUD_API_URL` followed by
`"/sentry"` when the variable is set, and `"https://api.kubeshark.co/sentry"`
when it is unset; and every request `GetDSN` constructs or sends is a `POST`
to that endpoint. -/
theorem getDSNEndpoint_base_sentry (env : OsEnv) :
    (∀ base, env "KUBESHARK_CLOUD_API_URL" = some base →
      getDSNEndpoint env = base ++ "/sentry") ∧
    (env "KUBESHARK_CLOUD_API_URL" = none →
      getDSNEndpoint env = "https://api.kubeshark.co" ++ "/sentry" ∧
      getDSNEndpoint env = "https://api.kubeshark.co/sentry") ∧
    (∀ (ext : External) (ctx : Context) (service version : String),
      (∀ method url err,
        Call.newRequest method url err ∈ (GetDSN ext env ctx service version).calls →
          method = "POST" ∧ url = getDSNEndpoint env) ∧
      (∀ client req res,
        Call.clientDo client req res ∈ (GetDSN ext env ctx service version).calls →
          req.Method = "POST" ∧ req.URL = getDSNEndpoint env)) := by
  refine ⟨fun base h => ?_, fun h => ?_, fun ext ctx service version => ⟨?_, ?_⟩⟩
  · simp [getDSNEndpoint, os_LookupEnv, h]
  · have : getDSNEndpoint env = "https://api.kubeshark.co" ++ "/sentry" := by
      simp [getDSNEndpoint, os_LookupEnv, h]
    exact ⟨this, this.trans (by decide)⟩
  · intro method url err hmem
    obtain ⟨h1, h2, -⟩ :=
      (GetDSN_calls_sound ext env ctx service version).1 method url err hmem
    exact ⟨h1, h2⟩
  · intro client req res hmem
    obtain ⟨-, -, j, -, rfl⟩ :=
      (GetDSN_calls_sound ext env ctx service version).2 client req res hmem
    exact ⟨rfl, rfl⟩

/-- Instance of C6: the variable unset and the variable set to
`http://local:9000`. -/
theorem getDSNEndpoint_base_sentry_witness :
    getDSNEndpoint envUnset = "https://api.kubeshark.co/sentry" ∧
    getDSNEndpoint (envSingle "KUBESHARK_CLOUD_API_URL" "http://local:9000")
      = "http://local:9000" ++ "/sentry" :=
  ⟨((getDSNEndpoint_base_sentry envUnset).2.1 rfl).2,
   (getDSNEndpoint_base_sentry (envSingle "KUBESHARK_CLOUD_API_URL" "http://local:9000")).1
     "http://local:9000" (by decide)⟩

/-! ## Theorems: `AddTags` -/

/-- One step of the `range` loop of `AddTags`. -/
theorem AddTags_cons (kv : String × String) (tags : List (String × String)) (scope : Scope) :
    AddTags (kv :: tags) scope =
      AddTags tags (if kv.2 ≠ "" then scope.SetTag kv.1 kv.2 else scope) := by
  simp [AddTags]

/-- The `SetTag` calls `AddTags` adds are the entries with a non-empty value, in
iteration order. -/
theorem AddTags_setTagCalls (tags : List (String × String)) (scope : Scope) :
    (AddTags tags scope).setTagCalls =
      scope.setTagCalls ++ tags.filter (fun kv => kv.2 ≠ "") := by
  induction tags generalizing scope with
  | nil => simp [AddTags]
  | cons kv tags ih =>
    rw [AddTags_cons, ih]
    by_cases h : kv.2 = ""
    · simp [h]
    · simp [h, Scope.SetTag]

/-- A key whose entries all carry the empty value keeps its tag. -/
theorem AddTags_tags_untouched (tags : List (String × String)) (scope : Scope) (k : String)
    (h : ∀ v, (k, v) ∈ tags → v = "") :
    (AddTags tags scope).tags k = scope.tags k := by
  induction tags generalizing scope with
  | nil => simp [AddTags]
  | cons kv tags ih =>
    rw [AddTags_cons, ih _ (fun v hv => h v (List.mem_cons_of_mem _ hv))]
    by_cases hv : kv.2 = ""
    · simp [hv]
    · have hk : k ≠ kv.1 := by
        intro hk
        apply hv
        apply h kv.2
        rw [hk]
        exact List.mem_cons_self _ _
      simp [hv, Scope.SetTag, hk]

/-- With pairwise different keys, an entry with a non-empty value ends up as
the tag of its key. -/
theorem AddTags_tags_set (tags : List (String × String)) (scope : Scope) (k v : String)
    (hnd : (tags.map Prod.fst).Nodup) (hmem : (k, v) ∈ tags) (hv : v ≠ "") :
    (AddTags tags scope).tags k = some v := by
  induction tags generalizing scope with
  | nil => simp at hmem
  | cons kv tags ih =>
    rw [List.map_cons, List.nodup_cons] at hnd
    rw [AddTags_cons]
    rcases List.mem_cons.1 hmem with heq | htail
    · subst heq
      rw [AddTags_tags_untouched]
      · simp [hv, Scope.SetTag]
      · intro w hw
        exact absurd (List.mem_map_of_mem Prod.fst hw) hnd.1
    · exact ih _ hnd.2 htail

/-- C9: for a map `m` (entries with pairwise different keys), any order `order`
in which the loop visits its entries and any initial scope, `AddTags` adds
exactly the `SetTag` calls of the entries with a non-empty value, each once
(the added calls are without repetition) and none for an entry with the empty
value; the resulting tag table is the initial
one overridden by exactly those entries, and is the same for every iteration
order. -/
theorem AddTags_sets_nonempty_entries (m order : List (String × String))
    (hm : (m.map Prod.fst).Nodup) (ho : order.Perm m) (scope : Scope) :
    (∃ added, (AddTags order scope).setTagCalls = scope.setTagCalls ++ added ∧
      added.length = (m.filter (fun kv => kv.2 ≠ "")).length ∧
      added.Nodup ∧ ∀ k v, (k, v) ∈ added ↔ (k, v) ∈ m ∧ v ≠ "") ∧
    (∀ k v, (k, v) ∈ m → v ≠ "" → (AddTags order scope).tags k = some v) ∧
    (∀ k, (∀ v, (k, v) ∈ m → v = "") → (AddTags order scope).tags k = scope.tags k) ∧
    (∀ other : List (String × String), other.Perm m →
      (AddTags other scope).tags = (AddTags order scope).tags) := by
  have hset : ∀ l : List (String × String), l.Perm m → ∀ k v, (k, v) ∈ m → v ≠ "" →
      (AddTags l scope).tags k = some v := fun l hl k v hmem hv =>
    AddTags_tags_set l scope k v ((hl.map Prod.fst).nodup_iff.2 hm) (hl.mem_iff.2 hmem) hv
  have hkeep : ∀ l : List (String × String), l.Perm m → ∀ k, (∀ v, (k, v) ∈ m → v = "") →
      (AddTags l scope).tags k = scope.tags k := fun l hl k h =>
    AddTags_tags_untouched l scope k (fun v hv => h v (hl.mem_iff.1 hv))
  refine ⟨⟨order.filter (fun kv => kv.2 ≠ ""), AddTags_setTagCalls order scope,
    (ho.filter _).length_eq, (ho.nodup_iff.2 (List.Nodup.of_map _ hm)).filter _, fun k v => ?_⟩,
    hset order ho, hkeep order ho, fun other hother => ?_⟩
  · simp [List.mem_filter, ho.mem_iff]
  · funext k
    by_cases hex : ∃ v, (k, v) ∈ m ∧ v ≠ ""
    · obtain ⟨v, hmem, hv⟩ := hex
      rw [hset other hother k v hmem hv, hset order ho k v hmem hv]
    · have hall : ∀ v, (k, v) ∈ m → v = "" := fun v hmem =>
        by_contra fun hv => hex ⟨v, hmem, hv⟩
      rw [hkeep other hother k hall, hkeep order ho k hall]

/-- Instance of C9: the map with the entries `a ↦ "1"` and `b ↦ ""`, visited
`b` first, on the empty scope: one call, `SetTag("a", "1")`. -/
theorem AddTags_sets_nonempty_entries_witness :
    (∃ added, (AddTags [("b", ""), ("a", "1")] scopeEmpty).setTagCalls = [] ++ added ∧
      added.length = 1 ∧
      added.Nodup ∧ ∀ k v, (k, v) ∈ added ↔ (k, v) ∈ [("a", "1"), ("b", "")] ∧ v ≠ "") ∧
    (AddTags [("b", ""), ("a", "1")] scopeEmpty).tags "a" = some "1" ∧
    (AddTags [("b", ""), ("a", "1")] scopeEmpty).tags "b" = none :=
  have h := AddTags_sets_nonempty_entries [("a", "1"), ("b", "")] [("b", ""), ("a", "1")]
    (by decide) (List.Perm.swap _ _ _) scopeEmpty
  ⟨h.1, h.2.1 "a" "1" (by decide) (by decide),
    h.2.2.1 "b" (fun v hv => by
      simp only [List.mem_cons, Prod.mk.injEq, List.mem_nil_iff] at hv
      rcases hv with ⟨h1, -⟩ | ⟨-, h2⟩ | h3
      · exact absurd h1 (by decide)
      · exact h2
      · exact h3.elim)⟩

end Sentry
